import Mathlib

/-!
Verification of the streaming S3 → zstd → newline-split → JSON-parse → count
pipeline implemented in `src/main.rs` (`function_handler`).

The handler is shallowly embedded as a pure function.  External collaborators
(the S3 client, the zstd decoder of the `async_compression` crate, the tokio
line reader) are modelled by their observable behaviour at the boundary where
the handler consumes them:

* the S3 `get_object` call is an `Except FetchError GetObjectOutput` input;
* the zstd decoder is represented by the decompressed byte stream it yields
  (`ZstdStream.content`, bytes modelled as `Char`) together with a flag
  (`ZstdStream.corrupt`) saying whether the stream ends in a `CorruptStream`
  decoding error instead of a clean end of stream — a valid compressed input
  is `⟨bytes, false⟩`, an input with invalid or truncated framing is
  `⟨prefix, true⟩` where `prefix` is whatever decompressed data the decoder
  delivered before hitting the corruption;
* `Instant::now`/`elapsed` is an `elapsed : Nat` input (opaque time units).
-/

/-- Request payload, from `struct Request` in `src/main.rs`. -/
structure Request where
  bucket : String
  key : String
deriving DecidableEq, Repr

/-- The Lambda context; the handler only reads `request_id`. -/
structure Context where
  request_id : String
deriving DecidableEq, Repr

/-- The `LambdaEvent<Request>` value handed to `function_handler`. -/
structure LambdaEvent where
  payload : Request
  context : Context
deriving DecidableEq, Repr

/-- Response structure, from `struct Response` in `src/main.rs`. -/
structure Response where
  req_id : String
  msg : String
deriving DecidableEq, Repr

/-- Model of the zstd-compressed S3 object body: the external decoder is
represented by the decompressed data it yields before either clean end of
stream (`corrupt = false`) or a fatal `CorruptStream` decoding error
(`corrupt = true`). -/
structure ZstdStream where
  content : List Char
  corrupt : Bool
deriving DecidableEq, Repr

/-- The part of rusoto's `GetObjectOutput` the handler uses: the optional
body stream. -/
structure GetObjectOutput where
  body : Option ZstdStream
deriving DecidableEq, Repr

/-- Errors the S3 `get_object` call itself can produce (external collaborator,
propagated by `?` in the handler). -/
inductive FetchError where
  | notFound
  | accessDenied
  | transientIO
deriving DecidableEq, Repr

/-- The error outcomes of `function_handler` (all surfaced as `Err(..)`,
i.e. no `Response` is produced). -/
inductive HandlerError where
  | fetch (e : FetchError)
  | emptyBody
  | parseError
  | corruptStream
deriving DecidableEq, Repr

/-! ### JSON syntax checker (model of `serde_json::from_str`)

The handler only observes whether `serde_json::from_str(&line)` succeeds or
fails, so the parser is embedded as a syntax checker over `List Char`,
following serde_json's strict JSON grammar: one value, optional surrounding
whitespace (space, tab, newline, carriage return), no trailing data.
Surrogate-pair pairing inside `\u` escapes is elided (escapes are checked to
be four hex digits). -/

/-- Opening curly brace character (written via its code point). -/
def lbrace : Char := Char.ofNat 123

/-- Closing curly brace character (written via its code point). -/
def rbrace : Char := Char.ofNat 125

/-- JSON whitespace accepted by serde_json between tokens. -/
def isJsonWs (c : Char) : Bool :=
  c = ' ' || c = Char.ofNat 9 || c = '\n' || c = Char.ofNat 13

/-- Skip JSON whitespace. -/
def skipWs (cs : List Char) : List Char := cs.dropWhile isJsonWs

/-- Hexadecimal digit test for `\u` escapes. -/
def isHexDigitCh (c : Char) : Bool :=
  c.isDigit || (97 ≤ c.toNat && c.toNat ≤ 102) || (65 ≤ c.toNat && c.toNat ≤ 70)

/-- Consume the rest of a JSON string literal (the opening quote has already
been consumed); returns the input after the closing quote. -/
def parseStringRest : List Char → Option (List Char)
  | [] => none
  | '"' :: rest => some rest
  | '\\' :: 'u' :: h1 :: h2 :: h3 :: h4 :: rest =>
    if isHexDigitCh h1 && isHexDigitCh h2 && isHexDigitCh h3 && isHexDigitCh h4 then
      parseStringRest rest
    else none
  | '\\' :: e :: rest =>
    if e = '"' || e = '\\' || e = '/' || e = 'b' || e = 'f' || e = 'n' || e = 'r' || e = 't' then
      parseStringRest rest
    else none
  | c :: rest => if c.toNat < 32 then none else parseStringRest rest

/-- Integer part of a JSON number: `0` or a nonzero digit followed by digits. -/
def parseIntPart : List Char → Option (List Char)
  | [] => none
  | c :: rest =>
    if c = '0' then some rest
    else if c.isDigit then some (rest.dropWhile Char.isDigit)
    else none

/-- Optional fraction part: `.` followed by at least one digit. -/
def parseFracPart : List Char → Option (List Char)
  | '.' :: rest =>
    match rest with
    | c :: _ => if c.isDigit then some (rest.dropWhile Char.isDigit) else none
    | [] => none
  | cs => some cs

/-- Optional exponent part: `e`/`E`, optional sign, at least one digit. -/
def parseExpPart : List Char → Option (List Char)
  | [] => some []
  | c :: rest =>
    if c = 'e' || c = 'E' then
      let rest2 := match rest with
        | s :: r => if s = '+' || s = '-' then r else s :: r
        | [] => []
      match rest2 with
      | d :: _ => if d.isDigit then some (rest2.dropWhile Char.isDigit) else none
      | [] => none
    else some (c :: rest)

/-- A JSON number after the optional leading minus sign. -/
def parseNumber (cs : List Char) : Option (List Char) :=
  match parseIntPart cs with
  | none => none
  | some r1 =>
    match parseFracPart r1 with
    | none => none
    | some r2 => parseExpPart r2

mutual

/-- Consume one JSON value; fuel bounds the nesting depth. -/
def parseValue : Nat → List Char → Option (List Char)
  | 0, _ => none
  | _ + 1, [] => none
  | _ + 1, 'n' :: 'u' :: 'l' :: 'l' :: rest => some rest
  | _ + 1, 't' :: 'r' :: 'u' :: 'e' :: rest => some rest
  | _ + 1, 'f' :: 'a' :: 'l' :: 's' :: 'e' :: rest => some rest
  | f + 1, c :: rest =>
    if c = '"' then parseStringRest rest
    else if c = lbrace then
      match skipWs rest with
      | [] => none
      | c2 :: rest2 => if c2 = rbrace then some rest2 else parseMembers f (c2 :: rest2)
    else if c = '[' then
      match skipWs rest with
      | [] => none
      | c2 :: rest2 => if c2 = ']' then some rest2 else parseElems f (c2 :: rest2)
    else if c = '-' then parseNumber rest
    else if c.isDigit then parseNumber (c :: rest)
    else none

/-- Consume the comma-separated elements of a nonempty JSON array and the
closing bracket. -/
def parseElems : Nat → List Char → Option (List Char)
  | 0, _ => none
  | f + 1, cs =>
    match parseValue f cs with
    | none => none
    | some r1 =>
      match skipWs r1 with
      | ',' :: r2 => parseElems f (skipWs r2)
      | ']' :: r2 => some r2
      | _ => none

/-- Consume the comma-separated members of a nonempty JSON object and the
closing brace. -/
def parseMembers : Nat → List Char → Option (List Char)
  | 0, _ => none
  | f + 1, cs =>
    match cs with
    | [] => none
    | c :: rest =>
      if c = '"' then
        match parseStringRest rest with
        | none => none
        | some r1 =>
          match skipWs r1 with
          | ':' :: r2 =>
            match parseValue f (skipWs r2) with
            | none => none
            | some r3 =>
              match skipWs r3 with
              | [] => none
              | c4 :: r4 =>
                if c4 = ',' then parseMembers f (skipWs r4)
                else if c4 = rbrace then some r4
                else none
          | _ => none
      else none

end

/-- Model of `serde_json::from_str(&line).is_ok()`: the whole line is one
JSON value with optional surrounding whitespace. -/
def isValidJson (cs : List Char) : Bool :=
  match parseValue (cs.length + 2) (skipWs cs) with
  | some rest => (skipWs rest).isEmpty
  | none => false

/-! ### Line splitting (model of tokio's `AsyncBufReadExt::lines`)

`next_line` accumulates bytes until a `\n`; when a line is terminated by
`\n` the terminator is stripped, and then a single trailing `\r`, if
present, is also stripped (CRLF handling).  At end of stream a nonempty
partial line with no terminator is emitted as-is (no `\r` stripping, which
only happens when a `\n` was stripped); an empty buffer at end of stream
ends the iteration.  If the underlying stream errors, `next_line` returns
the error instead of a line, so only lines fully terminated before the
error point are ever produced. -/

/-- Finish a `\n`-terminated line: `acc` is the accumulated line in reverse;
strip one trailing carriage return if present, then restore order. -/
def finishLine (acc : List Char) : List Char :=
  match acc with
  | '\r' :: a => a.reverse
  | _ => acc.reverse

/-- The line a terminator-stripped read hands to the parser: `chomp l`
removes one trailing carriage return from `l` if present. -/
def chomp (l : List Char) : List Char := finishLine l.reverse

/-- Split a cleanly terminated stream into lines: terminated lines have the
terminator (and one trailing `\r`) stripped; a nonempty trailing partial
line is emitted unchanged.  `acc` holds the current line in reverse. -/
def splitLinesGo : List Char → List Char → List (List Char)
  | acc, [] => if acc = [] then [] else [acc.reverse]
  | acc, c :: cs =>
    if c = '\n' then finishLine acc :: splitLinesGo [] cs
    else splitLinesGo (c :: acc) cs

/-- Lines of a stream that ends cleanly (end of stream reached). -/
def splitLines (cs : List Char) : List (List Char) := splitLinesGo [] cs

/-- Lines of a stream that ends in a decoding error: only lines fully
terminated before the error point are produced; a trailing partial line is
lost to the error. -/
def completeLinesGo : List Char → List Char → List (List Char)
  | _, [] => []
  | acc, c :: cs =>
    if c = '\n' then finishLine acc :: completeLinesGo [] cs
    else completeLinesGo (c :: acc) cs

/-- Complete (terminated) lines of possibly error-terminated content. -/
def completeLines (cs : List Char) : List (List Char) := completeLinesGo [] cs

/-- The sequence of lines `lines.next_line()` yields for a body stream
before it reports either end of stream or the decoding error. -/
def linesOf (s : ZstdStream) : List (List Char) :=
  if s.corrupt then completeLines s.content else splitLines s.content

/-! ### The handler loop and `function_handler` -/

/-- The `while let Some(line) = lines.next_line().await?` loop body of
`function_handler`: parse the line as JSON (a failure propagates via `?` as
a fatal error), increment `num_log_events`, and print a progress message
when the incremented count is a multiple of 1000.  Returns the loop outcome
together with the list of progress notifications printed (in order). -/
def processLines : List (List Char) → Nat → Except HandlerError Nat × List Nat
  | [], n => (.ok n, [])
  | l :: rest, n =>
    if isValidJson l then
      ((processLines rest (n + 1)).fst,
        if (n + 1) % 1000 = 0 then (n + 1) :: (processLines rest (n + 1)).snd
        else (processLines rest (n + 1)).snd)
    else (.error .parseError, [])

/-- The summary message, from
`format!("elapsed={:?} num_log_events={}", started_at.elapsed(), n)`. -/
def mkMsg (elapsed count : Nat) : String :=
  "elapsed=" ++ toString elapsed ++ " num_log_events=" ++ toString count

/-- Shallow embedding of `function_handler` from `src/main.rs`.  The S3
call's outcome and the elapsed time are inputs (they come from external
collaborators); everything else follows the source: a missing body is the
fatal `No body found in S3 response` error; the loop parses every line,
aborting on the first parse failure or on a stream decoding error; on
success the response carries the request id and the summary message. -/
def function_handler (event : LambdaEvent) (getObject : Except FetchError GetObjectOutput)
    (elapsed : Nat) : Except HandlerError Response :=
  match getObject with
  | .error e => .error (.fetch e)
  | .ok output =>
    match output.body with
    | none => .error .emptyBody
    | some s =>
      match (processLines (linesOf s) 0).fst with
      | .error e => .error e
      | .ok n =>
        if s.corrupt then .error .corruptStream
        else .ok ⟨event.context.request_id, mkMsg elapsed n⟩

/-- The progress notifications (`println!("num_log_events={}", ..)`) a run
prints, in order. -/
def handlerNotifications (getObject : Except FetchError GetObjectOutput) : List Nat :=
  match getObject with
  | .error _ => []
  | .ok output =>
    match output.body with
    | none => []
    | some s => (processLines (linesOf s) 0).snd

/-- Modelled from the spec, for the refinement half of the progress-signal
claim: the same counting loop with the notification side effect dropped. -/
def countLoop : List (List Char) → Nat → Except HandlerError Nat
  | [], n => .ok n
  | l :: rest, n => if isValidJson l then countLoop rest (n + 1) else .error .parseError

/-! ### Helper lemmas -/

theorem splitLinesGo_newline (y : List Char) :
    ∀ (x acc : List Char), '\n' ∉ x →
      splitLinesGo acc (x ++ '\n' :: y) = finishLine (x.reverse ++ acc) :: splitLinesGo [] y := by
  intro x
  induction x with
  | nil =>
    intro acc _
    simp [splitLinesGo]
  | cons c x ih =>
    intro acc hx
    rw [List.mem_cons, not_or] at hx
    have hc : ¬(c = '\n') := fun h => hx.1 h.symm
    simp only [List.cons_append, splitLinesGo, if_neg hc, List.append_eq]
    rw [ih (c :: acc) hx.2]
    simp [List.append_assoc]

theorem splitLinesGo_no_newline :
    ∀ (x acc : List Char), '\n' ∉ x →
      splitLinesGo acc x =
        if x.reverse ++ acc = [] then [] else [(x.reverse ++ acc).reverse] := by
  intro x
  induction x with
  | nil =>
    intro acc _
    simp [splitLinesGo]
  | cons c x ih =>
    intro acc hx
    rw [List.mem_cons, not_or] at hx
    have hc : ¬(c = '\n') := fun h => hx.1 h.symm
    simp only [splitLinesGo, if_neg hc]
    rw [ih (c :: acc) hx.2]
    simp [List.append_assoc]

theorem chomp_append_cr (x : List Char) : chomp (x ++ ['\r']) = x := by
  simp [chomp, finishLine, List.reverse_append]

theorem chomp_of_getLast (x : List Char) (h : x.getLast? ≠ some '\r') : chomp x = x := by
  unfold chomp
  match hx : x.reverse with
  | [] =>
    have hnil : x = [] := by rwa [List.reverse_eq_nil_iff] at hx
    simp [hnil, finishLine]
  | c :: a =>
    have hc : ¬(c = '\r') := by
      intro hc
      apply h
      rw [← List.head?_reverse, hx, hc]
      rfl
    have hback : (c :: a).reverse = x := by
      rw [← hx, List.reverse_reverse]
    simp [finishLine, hc, hback]

theorem processLines_ok :
    ∀ (ls : List (List Char)), (∀ l ∈ ls, isValidJson l = true) →
      ∀ n, (processLines ls n).fst = .ok (n + ls.length) := by
  intro ls
  induction ls with
  | nil =>
    intro _ n
    simp [processLines]
  | cons l rest ih =>
    intro h n
    have hl : isValidJson l = true := h l (List.mem_cons_self l rest)
    have hr := ih (fun a ha => h a (List.mem_cons_of_mem l ha)) (n + 1)
    simp only [processLines, hl, if_true]
    rw [hr]
    simp only [List.length_cons]
    congr 1
    omega

theorem processLines_err :
    ∀ (ls : List (List Char)), (∃ l ∈ ls, isValidJson l = false) →
      ∀ n, (processLines ls n).fst = .error .parseError := by
  intro ls
  induction ls with
  | nil =>
    intro h
    exact absurd h (by simp)
  | cons l rest ih =>
    intro h n
    by_cases hl : isValidJson l = true
    · obtain ⟨a, ha, hbad⟩ := h
      rcases List.mem_cons.mp ha with rfl | ha2
      · rw [hl] at hbad
        cases hbad
      · simp only [processLines, hl, if_true]
        exact ih ⟨a, ha2, hbad⟩ (n + 1)
    · simp [processLines, hl]

theorem processLines_snd :
    ∀ (ls : List (List Char)) (n : Nat),
      (processLines ls n).snd =
        (List.range' (n + 1) ((ls.takeWhile isValidJson).length)).filter
          (fun m => decide (m % 1000 = 0)) := by
  intro ls
  induction ls with
  | nil =>
    intro n
    simp [processLines]
  | cons l rest ih =>
    intro n
    by_cases hl : isValidJson l = true
    · rw [List.takeWhile_cons_of_pos hl]
      simp only [processLines, hl, if_true, List.length_cons, List.range'_succ, List.filter_cons]
      rw [ih (n + 1)]
      by_cases hm : (n + 1) % 1000 = 0
      · simp [hm]
      · simp [hm]
    · rw [List.takeWhile_cons_of_neg hl]
      simp [processLines, hl]

theorem processLines_fst_eq_countLoop :
    ∀ (ls : List (List Char)) (n : Nat), (processLines ls n).fst = countLoop ls n := by
  intro ls
  induction ls with
  | nil =>
    intro n
    simp [processLines, countLoop]
  | cons l rest ih =>
    intro n
    by_cases hl : isValidJson l = true
    · simp [processLines, countLoop, hl, ih]
    · simp [processLines, countLoop, hl]

/-! ### Claim theorems -/

/-- C1: for every valid (uncorrupted) zstd-compressed input whose decompressed
content consists of N newline-delimited lines that are all syntactically valid
JSON, the handler completes successfully and the reported record count equals
exactly N, the number of lines. -/
theorem records_count_equals_lines (event : LambdaEvent) (elapsed : Nat) (content : List Char)
    (hvalid : ∀ l ∈ splitLines content, isValidJson l = true) :
    function_handler event (.ok ⟨some ⟨content, false⟩⟩) elapsed =
      .ok ⟨event.context.request_id, mkMsg elapsed (splitLines content).length⟩ := by
  have h1 : linesOf ⟨content, false⟩ = splitLines content := by simp [linesOf]
  simp only [function_handler, h1]
  rw [processLines_ok _ hvalid 0]
  simp

theorem records_count_equals_lines_witness :
    (∀ l ∈ splitLines ("\x7b\"a\":1\x7d\n\x7b\"b\":2\x7d\n").data, isValidJson l = true) ∧
    function_handler ⟨⟨"bkt", "key"⟩, ⟨"req-1"⟩⟩
        (.ok ⟨some ⟨("\x7b\"a\":1\x7d\n\x7b\"b\":2\x7d\n").data, false⟩⟩) 5 =
      .ok ⟨"req-1", mkMsg 5 (splitLines ("\x7b\"a\":1\x7d\n\x7b\"b\":2\x7d\n").data).length⟩ :=
  ⟨by decide, records_count_equals_lines ⟨⟨"bkt", "key"⟩, ⟨"req-1"⟩⟩ 5 _ (by decide)⟩

/-- C2 counterexample: on the spec's own scenario input
`{"a":1}\n{"b":2}\nnot-json\n{"c":3}\n` the handler aborts with a fatal parse
error at the `not-json` line instead of continuing with the remaining lines,
so the parse failure is not non-fatal. -/
theorem parse_failure_nonfatal_counterexample :
    function_handler ⟨⟨"bkt", "key"⟩, ⟨"req-2"⟩⟩
        (.ok ⟨some ⟨("\x7b\"a\":1\x7d\n\x7b\"b\":2\x7d\nnot-json\n\x7b\"c\":3\x7d\n").data,
          false⟩⟩) 0 =
      .error .parseError := rfl

/-- C2 (amended): a line that fails JSON parsing is fatal to the run: the
handler aborts with a parse error (subsequent lines are not processed) and no
Response is produced. -/
theorem parse_failure_is_fatal (event : LambdaEvent) (elapsed : Nat) (s : ZstdStream)
    (h : ∃ l ∈ linesOf s, isValidJson l = false) :
    function_handler event (.ok ⟨some s⟩) elapsed = .error .parseError := by
  simp only [function_handler]
  rw [processLines_err _ h 0]

theorem parse_failure_is_fatal_witness :
    (∃ l ∈ linesOf ⟨("\x7b\"a\":1\x7d\nnot-json\n").data, false⟩, isValidJson l = false) ∧
    function_handler ⟨⟨"bkt", "key"⟩, ⟨"req-2w"⟩⟩
        (.ok ⟨some ⟨("\x7b\"a\":1\x7d\nnot-json\n").data, false⟩⟩) 1 = .error .parseError :=
  ⟨by decide, parse_failure_is_fatal ⟨⟨"bkt", "key"⟩, ⟨"req-2w"⟩⟩ 1 _ (by decide)⟩

/-- C3: when the compressed framing is invalid or truncated at any point, the
run fails with a fatal error and produces no Response, regardless of what was
decompressed before the corruption (the accumulated count is discarded with
the failed run, never partially reported). -/
theorem corrupt_stream_aborts_run (event : LambdaEvent) (elapsed : Nat) (s : ZstdStream)
    (h : s.corrupt = true) :
    ∃ e, function_handler event (.ok ⟨some s⟩) elapsed = .error e := by
  simp only [function_handler]
  cases hp : (processLines (linesOf s) 0).fst with
  | error e => exact ⟨e, by simp [hp]⟩
  | ok n => exact ⟨.corruptStream, by simp [hp, h]⟩

theorem corrupt_stream_aborts_run_witness :
    (⟨("\x7b\"a\":1\x7d\n").data, true⟩ : ZstdStream).corrupt = true ∧
    ∃ e, function_handler ⟨⟨"bkt", "key"⟩, ⟨"req-3"⟩⟩
        (.ok ⟨some ⟨("\x7b\"a\":1\x7d\n").data, true⟩⟩) 2 = .error e :=
  ⟨rfl, corrupt_stream_aborts_run ⟨⟨"bkt", "key"⟩, ⟨"req-3"⟩⟩ 2 _ rfl⟩

/-- C4 counterexample: a present body whose decompressed content is empty is
not rejected as an empty body: the handler succeeds with a record count of 0,
contradicting the claim that an absent-or-empty body is always a fatal
EmptyBody error. -/
theorem empty_body_counterexample :
    function_handler ⟨⟨"bkt", "key"⟩, ⟨"req-4"⟩⟩ (.ok ⟨some ⟨[], false⟩⟩) 7 =
      .ok ⟨"req-4", mkMsg 7 0⟩ := rfl

/-- C4 (amended): only an absent body (`body = None`) is the fatal
`No body found in S3 response` error with no Response; a present body whose
decompressed content is empty instead succeeds with a record count of 0. -/
theorem empty_body_policy (event : LambdaEvent) (elapsed : Nat) :
    function_handler event (.ok ⟨none⟩) elapsed = .error .emptyBody ∧
    function_handler event (.ok ⟨some ⟨[], false⟩⟩) elapsed =
      .ok ⟨event.context.request_id, mkMsg elapsed 0⟩ :=
  ⟨rfl, rfl⟩

/-- C5: when the decompressed content is exactly one syntactically valid JSON
line with no trailing newline terminator, the trailing partial line is emitted
(not discarded) and the handler reports a record count of 1. -/
theorem trailing_partial_line_emitted (event : LambdaEvent) (elapsed : Nat) (l : List Char)
    (h1 : '\n' ∉ l) (h2 : l ≠ []) (h3 : isValidJson l = true) :
    function_handler event (.ok ⟨some ⟨l, false⟩⟩) elapsed =
      .ok ⟨event.context.request_id, mkMsg elapsed 1⟩ := by
  have hs : splitLines l = [l] := by
    unfold splitLines
    rw [splitLinesGo_no_newline l [] h1]
    simp [h2]
  have hl : linesOf ⟨l, false⟩ = [l] := by simp [linesOf, hs]
  simp only [function_handler, hl]
  rw [processLines_ok [l] (by simpa using h3) 0]
  simp

theorem trailing_partial_line_emitted_witness :
    ('\n' ∉ ("\x7b\"a\":1\x7d").data ∧ ("\x7b\"a\":1\x7d").data ≠ [] ∧
      isValidJson ("\x7b\"a\":1\x7d").data = true) ∧
    function_handler ⟨⟨"bkt", "key"⟩, ⟨"req-5"⟩⟩
        (.ok ⟨some ⟨("\x7b\"a\":1\x7d").data, false⟩⟩) 3 = .ok ⟨"req-5", mkMsg 3 1⟩ :=
  ⟨⟨by decide, by decide, by decide⟩,
    trailing_partial_line_emitted ⟨⟨"bkt", "key"⟩, ⟨"req-5"⟩⟩ 3 _
      (by decide) (by decide) (by decide)⟩

/-- C6 counterexample: on content with an empty line between two consecutive
terminators the handler aborts with a fatal parse error instead of counting
the empty line as a non-fatal parse failure and continuing. -/
theorem empty_line_counterexample :
    function_handler ⟨⟨"bkt", "key"⟩, ⟨"req-6"⟩⟩
        (.ok ⟨some ⟨("\x7b\"a\":1\x7d\n\n\x7b\"b\":2\x7d\n").data, false⟩⟩) 0 =
      .error .parseError := rfl

/-- C6 (amended): a zero-length line between two consecutive terminators is
emitted as an empty TextLine and fails JSON parsing, but this aborts the run
with a fatal parse error — the empty line is neither counted nor skipped and
later lines are not processed. -/
theorem empty_line_aborts_run (event : LambdaEvent) (elapsed : Nat) (x y : List Char)
    (hx : '\n' ∉ x) :
    splitLines (x ++ '\n' :: '\n' :: y) = chomp x :: [] :: splitLines y ∧
    function_handler event (.ok ⟨some ⟨x ++ '\n' :: '\n' :: y, false⟩⟩) elapsed =
      .error .parseError := by
  have hsplit : splitLines (x ++ '\n' :: '\n' :: y) = chomp x :: [] :: splitLines y := by
    unfold splitLines
    rw [splitLinesGo_newline ('\n' :: y) x [] hx, List.append_nil]
    simp only [splitLinesGo, if_pos rfl]
    rfl
  refine ⟨hsplit, ?_⟩
  have hlines : linesOf ⟨x ++ '\n' :: '\n' :: y, false⟩ = chomp x :: [] :: splitLines y := by
    simpa [linesOf] using hsplit
  simp only [function_handler, hlines]
  rw [processLines_err _ ⟨[], by simp, rfl⟩ 0]

theorem empty_line_aborts_run_witness :
    ('\n' ∉ ("\x7b\"a\":1\x7d").data) ∧
    (splitLines (("\x7b\"a\":1\x7d").data ++ '\n' :: '\n' :: ("\x7b\"b\":2\x7d\n").data) =
        chomp ("\x7b\"a\":1\x7d").data :: [] :: splitLines ("\x7b\"b\":2\x7d\n").data ∧
      function_handler ⟨⟨"bkt", "key"⟩, ⟨"req-6w"⟩⟩
          (.ok ⟨some ⟨("\x7b\"a\":1\x7d").data ++ '\n' :: '\n' :: ("\x7b\"b\":2\x7d\n").data,
            false⟩⟩) 1 =
        .error .parseError) :=
  ⟨by decide, empty_line_aborts_run ⟨⟨"bkt", "key"⟩, ⟨"req-6w"⟩⟩ 1 _ _ (by decide)⟩

/-- C7: the progress notifications a run prints are exactly the positive
multiples of 1000 among the running counts 1..k of the successfully processed
records (emitted precisely when the running count is a positive multiple of
1000), and the handler's record count and success/failure outcome are fully
determined by the notification-free counting loop, so the side effect never
changes them. -/
theorem progress_notification_multiples (s : ZstdStream) :
    handlerNotifications (.ok ⟨some s⟩) =
      (List.range' 1 ((linesOf s).takeWhile isValidJson).length).filter
        (fun m => decide (m % 1000 = 0)) ∧
    ∀ (event : LambdaEvent) (elapsed : Nat),
      function_handler event (.ok ⟨some s⟩) elapsed =
        match countLoop (linesOf s) 0 with
        | .error e => .error e
        | .ok n =>
          if s.corrupt then .error .corruptStream
          else .ok ⟨event.context.request_id, mkMsg elapsed n⟩ := by
  constructor
  · simpa [handlerNotifications] using processLines_snd (linesOf s) 0
  · intro event elapsed
    simp only [function_handler, processLines_fst_eq_countLoop]

/-- C8: the record count is a deterministic function of the object's content
alone: if a run on a stream succeeds, any other run on the same stream (with a
different request, request id, or elapsed time) succeeds with the same record
count, only the elapsed time in the message differing. -/
theorem record_count_deterministic (e1 e2 : LambdaEvent) (t1 t2 : Nat) (s : ZstdStream)
    (r1 : Response) (h : function_handler e1 (.ok ⟨some s⟩) t1 = .ok r1) :
    ∃ n, r1.msg = mkMsg t1 n ∧
      function_handler e2 (.ok ⟨some s⟩) t2 = .ok ⟨e2.context.request_id, mkMsg t2 n⟩ := by
  simp only [function_handler] at h ⊢
  cases hp : (processLines (linesOf s) 0).fst with
  | error e =>
    rw [hp] at h
    cases h
  | ok n =>
    rw [hp] at h
    by_cases hc : s.corrupt = true
    · simp [hc] at h
    · simp [hc] at h ⊢
      exact ⟨n, by rw [← h], rfl⟩

theorem record_count_deterministic_witness :
    function_handler ⟨⟨"b1", "k1"⟩, ⟨"r1"⟩⟩ (.ok ⟨some ⟨("1\n2\n").data, false⟩⟩) 3 =
      .ok ⟨"r1", mkMsg 3 2⟩ ∧
    ∃ n, (⟨"r1", mkMsg 3 2⟩ : Response).msg = mkMsg 3 n ∧
      function_handler ⟨⟨"b2", "k2"⟩, ⟨"r2"⟩⟩ (.ok ⟨some ⟨("1\n2\n").data, false⟩⟩) 9 =
        .ok ⟨"r2", mkMsg 9 n⟩ :=
  ⟨rfl, record_count_deterministic ⟨⟨"b1", "k1"⟩, ⟨"r1"⟩⟩ ⟨⟨"b2", "k2"⟩, ⟨"r2"⟩⟩ 3 9
    ⟨("1\n2\n").data, false⟩ ⟨"r1", mkMsg 3 2⟩ rfl⟩

/-- C10: a CRLF-terminated line is handed to the JSON parser with both the
newline and the trailing carriage return stripped, so a record followed by
CRLF is processed exactly as if it were followed by a bare newline. -/
theorem crlf_terminator_stripped (event : LambdaEvent) (elapsed : Nat) (x y : List Char)
    (hx : '\n' ∉ x) (hr : x.getLast? ≠ some '\r') :
    splitLines (x ++ '\r' :: '\n' :: y) = x :: splitLines y ∧
    function_handler event (.ok ⟨some ⟨x ++ '\r' :: '\n' :: y, false⟩⟩) elapsed =
      function_handler event (.ok ⟨some ⟨x ++ '\n' :: y, false⟩⟩) elapsed := by
  have hx2 : '\n' ∉ x ++ ['\r'] := by
    simp only [List.mem_append, List.mem_singleton]
    rintro (h | h)
    · exact hx h
    · cases h
  have e1 : splitLines (x ++ '\r' :: '\n' :: y) = x :: splitLines y := by
    have hassoc : x ++ '\r' :: '\n' :: y = (x ++ ['\r']) ++ '\n' :: y := by simp
    rw [splitLines, hassoc, splitLinesGo_newline y (x ++ ['\r']) [] hx2, List.append_nil]
    show chomp (x ++ ['\r']) :: splitLines y = x :: splitLines y
    rw [chomp_append_cr]
  have e2 : splitLines (x ++ '\n' :: y) = x :: splitLines y := by
    rw [splitLines, splitLinesGo_newline y x [] hx, List.append_nil]
    show chomp x :: splitLines y = x :: splitLines y
    rw [chomp_of_getLast x hr]
  refine ⟨e1, ?_⟩
  have l1 : linesOf ⟨x ++ '\r' :: '\n' :: y, false⟩ = x :: splitLines y := by
    simpa [linesOf] using e1
  have l2 : linesOf ⟨x ++ '\n' :: y, false⟩ = x :: splitLines y := by
    simpa [linesOf] using e2
  simp only [function_handler, l1, l2]

theorem crlf_terminator_stripped_witness :
    ('\n' ∉ ("\x7b\"a\":1\x7d").data ∧ ("\x7b\"a\":1\x7d").data.getLast? ≠ some '\r') ∧
    (splitLines (("\x7b\"a\":1\x7d").data ++ '\r' :: '\n' :: []) =
        ("\x7b\"a\":1\x7d").data :: splitLines [] ∧
      function_handler ⟨⟨"bkt", "key"⟩, ⟨"req-10"⟩⟩
          (.ok ⟨some ⟨("\x7b\"a\":1\x7d").data ++ '\r' :: '\n' :: [], false⟩⟩) 4 =
        function_handler ⟨⟨"bkt", "key"⟩, ⟨"req-10"⟩⟩
          (.ok ⟨some ⟨("\x7b\"a\":1\x7d").data ++ '\n' :: [], false⟩⟩) 4) :=
  ⟨⟨by decide, by decide⟩,
    crlf_terminator_stripped ⟨⟨"bkt", "key"⟩, ⟨"req-10"⟩⟩ 4 _ _ (by decide) (by decide)⟩
